import Mathlib

/-
  Verification of the workbench git/editor layer of bolt.new-any-llm
  (src/app/lib/git/hooks/useGit.ts and the related editor store and
  Workbench component found in the same module bundle).

  The embedding is shallow: every JS function the claims touch is
  translated into an executable Lean function over explicit state.
  External services (the webcontainer filesystem, the isomorphic-git
  library, the GitHub API, browser dialogs) are modelled as oracles:
  records of functions or of pre-recorded answers, exactly at the
  boundary where the source calls them.
-/

/-! ## JavaScript string primitives, modelled structurally over lists of
characters so that all of them compute inside the kernel. -/

/-- Helper for the model of String.prototype.startsWith: does the first
list occur at the head of the second? -/
def chFront : List Char → List Char → Bool
  | [], _ => true
  | _ :: _, [] => false
  | a :: as, b :: bs => a == b && chFront as bs

/-- Model of the JS call s.startsWith(p). -/
def jsStartsWith (s p : String) : Bool := chFront p.data s.data

/-- Model of the JS call s.endsWith(p). -/
def jsEndsWith (s p : String) : Bool := chFront p.data.reverse s.data.reverse

/-- Model of the JS call s.trim(): drop whitespace at both ends. -/
def jsTrim (s : String) : String :=
  ⟨((s.data.dropWhile Char.isWhitespace).reverse.dropWhile Char.isWhitespace).reverse⟩

/-- Splitting a character list at every slash, mirroring the JS call
s.split(\x27/\x27): splitting the empty string yields one empty part. -/
def splitOnSlash : List Char → List (List Char)
  | [] => [[]]
  | x :: xs =>
    let r := splitOnSlash xs
    if x = '/' then [] :: r
    else
      match r with
      | [] => [[x]]
      | y :: ys => (x :: y) :: ys

/-- Model of the regex replace of /\/+$/ with the empty string: remove
every trailing slash. -/
def stripTrailingSlashes (p : String) : String :=
  ⟨(p.data.reverse.dropWhile (fun c => c = '/')).reverse⟩

/-- JS truthiness of a prompt result (string or null): null and the
empty string are falsy. -/
def jsTruthy : Option String → Bool
  | none => false
  | some s => s != ""

/-! ## pathUtils (useGit.ts, bottom of the module) -/

namespace pathUtils

/-- pathUtils.dirname from useGit.ts. -/
def dirname (path : String) : String :=
  if path = "" ∨ path.data.contains '/' = false then "."
  else
    let p := stripTrailingSlashes path
    let joined := String.intercalate "/" (((splitOnSlash p.data).map (fun l => String.mk l)).dropLast)
    if joined = "" then "/" else joined

/-- pathUtils.basename from useGit.ts; the optional extension argument is
passed explicitly. -/
def basename (path : String) (ext : Option String) : String :=
  let p := stripTrailingSlashes path
  let base := (((splitOnSlash p.data).map (fun l => String.mk l)).getLast?).getD ""
  match ext with
  | some e =>
    if e ≠ "" ∧ jsEndsWith base e = true then ⟨base.data.take (base.data.length - e.data.length)⟩
    else base
  | none => base

/-- The normalizePathParts helper inside pathUtils.relative: strip
trailing slashes, split on slash, drop empty parts. -/
def normalizePathParts (p : String) : List String :=
  ((splitOnSlash (stripTrailingSlashes p).data).map (fun l => String.mk l)).filter (fun s => s ≠ "")

/-- The counting loop inside pathUtils.relative: length of the longest
common prefix of the two part lists, stopping at the first mismatch. -/
def commonPrefixLen : List String → List String → Nat
  | a :: as, b :: bs => if a = b then commonPrefixLen as bs + 1 else 0
  | _, _ => 0

/-- pathUtils.relative from useGit.ts. -/
def relative (f t : String) : String :=
  if f = "" ∨ t = "" then "."
  else
    let fromParts := normalizePathParts f
    let toParts := normalizePathParts t
    let commonLength := commonPrefixLen fromParts toParts
    let upCount := fromParts.length - commonLength
    let remainingPath := toParts.drop commonLength
    let relativeParts := List.replicate upCount ".." ++ remainingPath
    if relativeParts = [] then "." else String.intercalate "/" relativeParts

end pathUtils

example : pathUtils.relative "/home/project" "/home/project/a/b.txt" = "a/b.txt" := by decide
example : pathUtils.relative "/home/project" "/home/other/x" = "../other/x" := by decide
example : pathUtils.dirname "a/b/c" = "a/b" := by decide
example : pathUtils.dirname "abc" = "." := by decide
example : pathUtils.basename "a/b/c.txt" none = "c.txt" := by decide

/-! ## The webcontainer boundary and the getFs filesystem adapter
(useGit.ts, getFs). File contents are abstracted to strings. -/

/-- Abstract file payload passed through the adapter unchanged. -/
abbrev Data := String

/-- The options object the git library passes to readFile/writeFile:
the encoding field the adapter reads, plus the remaining own
properties, which the adapter only spreads back out. -/
structure FsOptions where
  encoding : Option String
  rest : List (String × String)
deriving DecidableEq, Repr

/-- One entry of the fileData record: the {data, encoding} pair stored
by the adapter writeFile. -/
structure FileEntry where
  data : Data
  encoding : Option String
deriving DecidableEq, Repr

/-- The fileData ref of useGit: a mutable record from workdir-relative
paths to stored entries, modelled as a partial map. -/
abbrev FileDataRecord := String → Option FileEntry

/-- A directory entry as returned by the container readdir with
withFileTypes set. -/
structure DirEnt where
  name : String
  isFile : Bool
  isDirectory : Bool
deriving DecidableEq, Repr

/-- Options object of the container readdir call. -/
structure ReaddirOptions where
  withFileTypes : Bool
deriving DecidableEq, Repr

/-- The container filesystem, an external service: an oracle giving the
outcome of each primitive the adapter forwards to. -/
structure ContainerFs where
  readFile : String → Option String → Except String Data
  readdir : String → ReaddirOptions → Except String (List DirEnt)

/-- The webcontainer object: its working directory and its filesystem. -/
structure WebContainer where
  workdir : String
  fs : ContainerFs

/-- The call the adapter writeFile makes on the container filesystem. -/
structure ContainerWrite where
  path : String
  data : Data
  options : FsOptions
deriving DecidableEq, Repr

/-- The shape of a NodeJS.ErrnoException as built by the adapter stat. -/
structure ErrnoError where
  message : String
  code : String
  errno : Int
  syscall : String
  path : String
deriving DecidableEq, Repr

/-- The stats object the adapter stat returns on success. -/
structure Stats where
  isFile : Bool
  isDirectory : Bool
  isSymbolicLink : Bool
  size : Nat
  mode : Nat
  mtimeMs : Int
  uid : Nat
  gid : Nat
deriving DecidableEq, Repr

/-- The ENOENT error the adapter stat throws from its catch block. -/
def enoentStat (path : String) : ErrnoError :=
  { message := "ENOENT: no such file or directory, stat \x27" ++ path ++ "\x27"
    code := "ENOENT"
    errno := -2
    syscall := "stat"
    path := path }

namespace getFs

/-- getFs(...).promises.readFile: translate the absolute path to a
workdir-relative one and forward to the container readFile with the
encoding taken from the options. -/
def readFile (wc : WebContainer) (path : String) (options : FsOptions) : Except String Data :=
  let encoding := options.encoding
  let relativePath := pathUtils.relative wc.workdir path
  wc.fs.readFile relativePath encoding

/-- getFs(...).promises.writeFile: translate the path, store the
{data, encoding} pair in the fileData record, and forward the write to
the container (spreading the options with the same encoding). Returns
the updated record and the container call made. -/
def writeFile (wc : WebContainer) (record : FileDataRecord) (path : String) (d : Data)
    (options : FsOptions) : FileDataRecord × ContainerWrite :=
  let encoding := options.encoding
  let relativePath := pathUtils.relative wc.workdir path
  let record2 : FileDataRecord := fun k => if k = relativePath then some ⟨d, encoding⟩ else record k
  (record2, ⟨relativePath, d, { options with encoding := encoding }⟩)

/-- getFs(...).promises.stat: list the parent directory, look the entry
up by name, and either synthesise a stats object or map any failure to
a single ENOENT error. The mtimeMs field reads the clock; the current
time is passed in as now. -/
def stat (wc : WebContainer) (now : Int) (path : String) : Except ErrnoError Stats :=
  let relativePath := pathUtils.relative wc.workdir path
  match wc.fs.readdir (pathUtils.dirname relativePath) ⟨true⟩ with
  | .error _ => .error (enoentStat path)
  | .ok resp =>
    let name := pathUtils.basename relativePath none
    match resp.find? (fun x => x.name == name) with
    | none => .error (enoentStat path)
    | some fileInfo =>
      .ok { isFile := fileInfo.isFile
            isDirectory := fileInfo.isDirectory
            isSymbolicLink := false
            size := 1
            mode := 0o666
            mtimeMs := now
            uid := 1000
            gid := 1000 }

/-- getFs(...).promises.lstat delegates to stat. -/
def lstat (wc : WebContainer) (now : Int) (path : String) : Except ErrnoError Stats :=
  stat wc now path

end getFs

/-! ## gitClone (useGit.ts, useGit hook) -/

/-- A saved or entered git credential. -/
structure GitAuth where
  username : String
  password : String
deriving DecidableEq, Repr

/-- The argument object of the git.clone library call, restricted to the
data fields (the fs client, http transport and callbacks are the fixed
ambient objects). -/
structure CloneParams where
  dir : String
  url : String
  depth : Nat
  singleBranch : Bool
  corsProxy : String
deriving DecidableEq, Repr

/-- One writeFile request the git library issues against the adapter
during a clone: absolute path, payload and options. -/
structure WriteReq where
  path : String
  data : Data
  options : FsOptions
deriving DecidableEq, Repr

/-- The external git library, as an oracle: the writeFile requests it
issues through the fs adapter during the clone, and whether the clone
call itself resolves or rejects. -/
structure GitLibBehavior where
  writes : List WriteReq
  cloneResult : Except String Unit

/-- The value gitClone resolves with on success. -/
structure CloneSuccess where
  workdir : String
  data : FileDataRecord

/-- How a gitClone call ends. notInitialized is the thrown string
literal, sshError and cloneError are thrown Error objects (the latter
rethrown after the toast). -/
inductive CloneOutcome
  | notInitialized
  | sshError (msg : String)
  | cloneError (msg : String)
  | ok (r : CloneSuccess)

/-- Full observable effect of one gitClone call: its outcome, the
fileData record afterwards, and the git.clone invocations made. -/
structure CloneRun where
  outcome : CloneOutcome
  fileDataAfter : FileDataRecord
  cloneCalls : List CloneParams

/-- The hook state gitClone closes over: the ready flag, the optional
webcontainer, whether the fs adapter has been set, and the fileData
ref. -/
structure HookState where
  ready : Bool
  webcontainer : Option WebContainer
  fs : Bool
  fileData : FileDataRecord

/-- Replay of the writeFile requests of a clone through the adapter
writeFile, threading the fileData record. -/
def applyWrites (wc : WebContainer) (r : FileDataRecord) : List WriteReq → FileDataRecord
  | [] => r
  | w :: ws => applyWrites wc (getFs.writeFile wc r w.path w.data w.options).1 ws

/-- gitClone from useGit.ts: guard on initialization, clear fileData,
reject ssh urls, run the library clone, and on success return the
workdir together with a copy of the fileData record. -/
def gitClone (st : HookState) (lib : GitLibBehavior) (url : String) : CloneRun :=
  match st.webcontainer with
  | none => ⟨.notInitialized, st.fileData, []⟩
  | some wc =>
    if st.fs = false ∨ st.ready = false then ⟨.notInitialized, st.fileData, []⟩
    else
      let cleared : FileDataRecord := fun _ => none
      if jsStartsWith url "git@" = true then
        ⟨.sshError "SSH protocol is not supported. Please use HTTPS URL instead.", cleared, []⟩
      else
        let params : CloneParams := ⟨wc.workdir, url, 1, true, "https://cors.isomorphic-git.org"⟩
        let finalData := applyWrites wc cleared lib.writes
        match lib.cloneResult with
        | .error msg => ⟨.cloneError msg, finalData, [params]⟩
        | .ok _ => ⟨.ok ⟨wc.workdir, finalData⟩, finalData, [params]⟩

/-- Specification-side description of the record a clone builds: the
{data, encoding} pair of the LAST writeFile request whose translated
path is the key, none when no request wrote that key. -/
def lastWriteSpec (wc : WebContainer) : List WriteReq → String → Option FileEntry
  | [], _ => none
  | w :: ws, k =>
    match lastWriteSpec wc ws k with
    | some e => some e
    | none =>
      if pathUtils.relative wc.workdir w.path = k then some ⟨w.data, w.options.encoding⟩ else none

/-! ## The onAuth callback passed to git.clone -/

/-- The environment the onAuth callback consults, as an oracle: whether
ensureEncryption succeeds, the saved credential for the url if any, and
the pre-recorded answers of the confirm and the two prompt dialogs. -/
structure AuthEnv where
  encryptionOk : Bool
  savedAuth : Option GitAuth
  confirmAnswer : Bool
  usernameAnswer : Option String
  passwordAnswer : Option String

/-- What onAuth resolves with: cancellation or a credential. -/
inductive AuthCmd
  | cancel
  | ok (a : GitAuth)
deriving DecidableEq, Repr

/-- The onAuth callback of gitClone. Besides the result it reports
whether the user was prompted (the confirm dialog was reached). -/
def onAuth (env : AuthEnv) : AuthCmd × Bool :=
  if env.encryptionOk = false then (.cancel, false)
  else
    match env.savedAuth with
    | some auth => (.ok auth, false)
    | none =>
      if env.confirmAnswer = true then
        let username := env.usernameAnswer
        let password := env.passwordAnswer
        if jsTruthy username = true ∧ jsTruthy password = true then
          (.ok ⟨username.getD "", password.getD ""⟩, true)
        else (.cancel, true)
      else (.cancel, true)

/-! ## EditorStore.updateFile (stores module in the same bundle) -/

/-- An editor scroll position (opaque payload). -/
structure ScrollPosition where
  top : Int
  left : Int
deriving DecidableEq, Repr

/-- An editor document as held in the documents map store. -/
structure EditorDocument where
  value : String
  filePath : String
  scroll : Option ScrollPosition
  isBinary : Bool
deriving DecidableEq, Repr

/-- One entry of the version history store, as appended by
addVersion(filePath, content, description). -/
structure Version where
  filePath : String
  content : String
  description : String
deriving DecidableEq, Repr

/-- The state updateFile touches: the documents map store, the version
history store, and the unsavedFiles / modifiedFiles sets of the
workbench store (JS Sets, modelled as duplicate-free insertion lists). -/
structure EditorState where
  documents : String → Option EditorDocument
  versionHistory : List Version
  unsavedFiles : List String
  modifiedFiles : List String

/-- JS Set.add: append the element unless already present. -/
def addToSet (s : List String) (x : String) : List String :=
  if x ∈ s then s else s ++ [x]

/-- EditorStore.updateFile: no-op when the file has no document or the
content is unchanged; otherwise record a version, mark unsaved/modified
(only for files the files store knows), and update the document value.
The isExistingFile oracle stands for the files store query. -/
def updateFile (isExistingFile : String → Bool) (st : EditorState)
    (filePath newContent : String) : EditorState :=
  match st.documents filePath with
  | none => st
  | some documentState =>
    if documentState.value = newContent then st
    else
      let st1 : EditorState :=
        { st with versionHistory := st.versionHistory ++ [⟨filePath, newContent, "Modified in editor"⟩] }
      let st2 : EditorState :=
        if isExistingFile filePath = true then
          { st1 with unsavedFiles := addToSet st1.unsavedFiles filePath
                     modifiedFiles := addToSet st1.modifiedFiles filePath }
        else st1
      { st2 with documents := fun k =>
          if k = filePath then some { documentState with value := newContent } else st2.documents k }

/-! ## handleGitHubPush (Workbench component in the same bundle) -/

/-- Characters the branch-name regex class [~^:?*[\]\\] rejects. -/
def invalidBranchChar (c : Char) : Bool :=
  c == '~' || c == '^' || c == ':' || c == '?' || c == '*' || c == '[' || c == ']' || c == '\\'

/-- isValidBranchName from the Workbench component: non-empty, no
invalid character, and not ending with a dot. -/
def isValidBranchName (branchName : String) : Bool :=
  decide (0 < branchName.data.length) && !(branchName.data.any invalidBranchChar)
    && !(jsEndsWith branchName ".")

/-- The component state handleGitHubPush reads. -/
structure PushForm where
  githubRepoName : String
  githubUsername : String
  githubToken : String
  isPrivateRepo : Bool
  isNewBranch : Bool
  newBranchName : String
deriving DecidableEq, Repr

/-- What handleGitHubPush does before any network call: either an error
toast with its message and an early return, or the pushToGitHub store
call with the exact arguments passed. -/
inductive PushAction
  | error (msg : String)
  | push (repoName username token : String) (isPrivate : Bool)
      (branchName : Option String) (isNewBranch : Bool)
deriving DecidableEq, Repr

/-- The validation-and-dispatch part of handleGitHubPush: the guards in
source order, then the pushToGitHub call on trimmed inputs. -/
def handleGitHubPush (f : PushForm) : PushAction :=
  if f.githubRepoName = "" ∨ f.githubUsername = "" ∨ f.githubToken = "" then
    .error "Please fill in all GitHub details"
  else if ¬ (jsStartsWith f.githubToken "ghp_" = true ∨ jsStartsWith f.githubToken "github_pat_" = true) then
    .error "Invalid token format. Please use a GitHub Personal Access Token"
  else if f.isNewBranch = true ∧ f.newBranchName = "" then
    .error "Please enter a name for the new branch"
  else if f.isNewBranch = true ∧ ¬ isValidBranchName f.newBranchName = true then
    .error "Invalid branch name. Please ensure it does not contain invalid characters or end with a dot."
  else
    .push (jsTrim f.githubRepoName) (jsTrim f.githubUsername) (jsTrim f.githubToken)
      f.isPrivateRepo (if f.isNewBranch = true then some (jsTrim f.newBranchName) else none)
      f.isNewBranch

/-! ## Helper lemmas -/

/-- The common-prefix loop of pathUtils.relative counts the whole list
when both arguments coincide. -/
theorem commonPrefixLen_self (l : List String) : pathUtils.commonPrefixLen l l = l.length := by
  induction l with
  | nil => rfl
  | cons a as ih => simp [pathUtils.commonPrefixLen, ih]

/-- Replaying the writeFile requests of a clone yields, at every key,
the entry of the last request translated to that key, and the initial
record elsewhere. -/
theorem applyWrites_lastWriteSpec (wc : WebContainer) (ws : List WriteReq) :
    ∀ (r : FileDataRecord) (k : String),
      applyWrites wc r ws k
        = match lastWriteSpec wc ws k with
          | some e => some e
          | none => r k := by
  induction ws with
  | nil => intro r k; rfl
  | cons w ws ih =>
    intro r k
    show applyWrites wc (getFs.writeFile wc r w.path w.data w.options).1 ws k = _
    rw [ih]
    cases hws : lastWriteSpec wc ws k with
    | some e => simp [lastWriteSpec, hws]
    | none =>
      by_cases hrel : pathUtils.relative wc.workdir w.path = k
      · simp [lastWriteSpec, hws, hrel, getFs.writeFile]
      · simp [lastWriteSpec, hws, hrel, getFs.writeFile, Ne.symm hrel]

/-- The last-write specification holds an entry at a key exactly when
some request of the clone wrote that translated key. -/
theorem lastWriteSpec_isSome (wc : WebContainer) (ws : List WriteReq) (k : String) :
    (lastWriteSpec wc ws k).isSome = true
      ↔ k ∈ ws.map (fun w => pathUtils.relative wc.workdir w.path) := by
  induction ws with
  | nil => simp [lastWriteSpec]
  | cons w ws ih =>
    rw [List.map_cons, List.mem_cons]
    cases hws : lastWriteSpec wc ws k with
    | some e =>
      simp only [lastWriteSpec, hws]
      simp only [Option.isSome_some, true_iff]
      exact Or.inr (ih.mp (by rw [hws]; rfl))
    | none =>
      simp only [lastWriteSpec, hws]
      by_cases hrel : pathUtils.relative wc.workdir w.path = k
      · simp [hrel]
      · rw [if_neg hrel]
        simp only [Option.isSome_none, Bool.false_eq_true, false_iff]
        rintro (h | h)
        · exact hrel h.symm
        · have := ih.mpr h
          rw [hws] at this
          cases this

/-! ## The claims -/

/-- Claim C1: for every absolute path p and options object o, the
adapter readFile(p, o) returns exactly the value of the container
fs.readFile applied to pathUtils.relative(workdir, p) and o.encoding;
it only translates the path and forwards the call. -/
theorem readFile_is_thin_adapter (wc : WebContainer) (path : String) (options : FsOptions) :
    getFs.readFile wc path options
      = wc.fs.readFile (pathUtils.relative wc.workdir path) options.encoding := rfl

/-- Claim C2: the adapter writeFile(p, d, o) stores {data := d,
encoding := o.encoding} in the fileData record under the
workdir-relative translation of p, and forwards the write to the
container at that relative path with the options of o. -/
theorem writeFile_records_and_forwards (wc : WebContainer) (record : FileDataRecord)
    (path : String) (d : Data) (options : FsOptions) :
    (getFs.writeFile wc record path d options).1 (pathUtils.relative wc.workdir path)
        = some ⟨d, options.encoding⟩ ∧
    (getFs.writeFile wc record path d options).2
        = ⟨pathUtils.relative wc.workdir path, d, options⟩ := by
  exact ⟨by simp [getFs.writeFile], rfl⟩

/-- Claim C4: when the webcontainer, the fs adapter or the ready flag is
not set, gitClone throws the notInitialized string before touching the
fileData record and without invoking the git library. -/
theorem gitClone_requires_initialization (st : HookState) (lib : GitLibBehavior) (url : String)
    (h : st.webcontainer = none ∨ st.fs = false ∨ st.ready = false) :
    gitClone st lib url = ⟨.notInitialized, st.fileData, []⟩ := by
  unfold gitClone
  rcases h with h | h | h
  · rw [h]
  · cases hw : st.webcontainer with
    | none => rfl
    | some wc => simp [h]
  · cases hw : st.webcontainer with
    | none => rfl
    | some wc => simp [h]

/-- Claim C5: on an initialized hook, gitClone rejects every url that
starts with git@ with the SSH error message and no git.clone call, and
for every other url invokes git.clone exactly once, with depth 1,
singleBranch true and the container workdir as dir. -/
theorem gitClone_ssh_and_params (st : HookState) (lib : GitLibBehavior) (url : String)
    (wc : WebContainer) (hwc : st.webcontainer = some wc) (hfs : st.fs = true)
    (hready : st.ready = true) :
    (jsStartsWith url "git@" = true →
      (gitClone st lib url).outcome
          = .sshError "SSH protocol is not supported. Please use HTTPS URL instead." ∧
      (gitClone st lib url).cloneCalls = []) ∧
    (jsStartsWith url "git@" = false →
      (gitClone st lib url).cloneCalls
          = [⟨wc.workdir, url, 1, true, "https://cors.isomorphic-git.org"⟩]) := by
  constructor
  · intro hssh
    simp [gitClone, hwc, hfs, hready, hssh]
  · intro hssh
    cases hres : lib.cloneResult <;> simp [gitClone, hwc, hfs, hready, hssh, hres]

/-- Claim C3: a successful gitClone returns the container workdir and a
data record holding exactly the workdir-relative paths written through
the adapter writeFile during that clone, each mapped to its recorded
{data, encoding} pair, starting from the cleared fileData record. -/
theorem gitClone_returns_exact_file_data (st : HookState) (lib : GitLibBehavior) (url : String)
    (wc : WebContainer) (rslt : CloneSuccess)
    (hwc : st.webcontainer = some wc)
    (hok : (gitClone st lib url).outcome = .ok rslt) :
    rslt.workdir = wc.workdir ∧
    (∀ k, rslt.data k = lastWriteSpec wc lib.writes k) ∧
    (∀ k, (rslt.data k).isSome = true
        ↔ k ∈ lib.writes.map (fun w => pathUtils.relative wc.workdir w.path)) := by
  simp only [gitClone, hwc] at hok
  by_cases hinit : st.fs = false ∨ st.ready = false
  · simp [hinit] at hok
  · rw [if_neg hinit] at hok
    by_cases hssh : jsStartsWith url "git@" = true
    · simp [hssh] at hok
    · rw [if_neg hssh] at hok
      cases hres : lib.cloneResult with
      | error msg => rw [hres] at hok; cases hok
      | ok u =>
        rw [hres] at hok
        cases hok
        refine ⟨rfl, ?_, ?_⟩
        · intro k
          show applyWrites wc (fun _ => none) lib.writes k = _
          rw [applyWrites_lastWriteSpec]
          cases lastWriteSpec wc lib.writes k <;> rfl
        · intro k
          show (applyWrites wc (fun _ => none) lib.writes k).isSome = true ↔ _
          rw [applyWrites_lastWriteSpec]
          rw [← lastWriteSpec_isSome wc lib.writes k]
          cases lastWriteSpec wc lib.writes k <;> rfl

/-- Claim C6: the onAuth callback resolves credentials in a fixed
order: cancel when encryption cannot be ensured, a saved password
without any prompt when one exists, a prompt only when neither applies,
and cancel on any incomplete prompt response. -/
theorem onAuth_credential_order (env : AuthEnv) :
    (env.encryptionOk = false → onAuth env = (.cancel, false)) ∧
    (∀ a, env.encryptionOk = true → env.savedAuth = some a → onAuth env = (.ok a, false)) ∧
    ((onAuth env).2 = true → env.encryptionOk = true ∧ env.savedAuth = none) ∧
    (env.encryptionOk = true → env.savedAuth = none →
      ¬ (jsTruthy env.usernameAnswer = true ∧ jsTruthy env.passwordAnswer = true) →
      (onAuth env).1 = .cancel) := by
  obtain ⟨enc, saved, conf, ua, pa⟩ := env
  refine ⟨?_, ?_, ?_, ?_⟩
  · intro h; subst h; rfl
  · intro a henc hs
    subst henc
    cases saved with
    | none => cases hs
    | some b => cases hs; rfl
  · intro h
    cases enc with
    | false => cases h
    | true =>
      cases saved with
      | none => exact ⟨rfl, rfl⟩
      | some b => cases h
  · intro henc hs htr
    subst henc; subst hs
    unfold onAuth
    cases conf with
    | false => rfl
    | true => simp [htr]

/-- Claim C8: the adapter stat either returns a stats object that is
never a symbolic link, has size 1 and mode 438, or throws the single
ENOENT error shape with errno -2 and syscall stat, whatever the
underlying failure was; and lstat behaves identically to stat. -/
theorem stat_shape (wc : WebContainer) (now : Int) (path : String) :
    (∀ s, getFs.stat wc now path = .ok s →
      s.isSymbolicLink = false ∧ s.size = 1 ∧ s.mode = 0o666) ∧
    (∀ e, getFs.stat wc now path = .error e →
      e.code = "ENOENT" ∧ e.errno = -2 ∧ e.syscall = "stat") ∧
    getFs.lstat wc now path = getFs.stat wc now path := by
  refine ⟨?_, ?_, rfl⟩
  · intro s hs
    cases hrd : wc.fs.readdir (pathUtils.dirname (pathUtils.relative wc.workdir path)) ⟨true⟩ with
    | error e => simp only [getFs.stat, hrd] at hs; cases hs
    | ok resp =>
      simp only [getFs.stat, hrd] at hs
      cases hf : resp.find?
          (fun x => x.name == pathUtils.basename (pathUtils.relative wc.workdir path) none) with
      | none => rw [hf] at hs; cases hs
      | some fileInfo => rw [hf] at hs; cases hs; exact ⟨rfl, rfl, rfl⟩
  · intro e he
    cases hrd : wc.fs.readdir (pathUtils.dirname (pathUtils.relative wc.workdir path)) ⟨true⟩ with
    | error err => simp only [getFs.stat, hrd] at he; cases he; exact ⟨rfl, rfl, rfl⟩
    | ok resp =>
      simp only [getFs.stat, hrd] at he
      cases hf : resp.find?
          (fun x => x.name == pathUtils.basename (pathUtils.relative wc.workdir path) none) with
      | none => rw [hf] at he; cases he; exact ⟨rfl, rfl, rfl⟩
      | some fileInfo => rw [hf] at he; cases he

/-- Claim C9: pathUtils.relative maps equal arguments to the dot path,
maps any pair with an empty argument to the dot path, and consequently
the adapter translates the workdir itself to the dot path when
forwarding to the container. -/
theorem relative_identity_and_empty :
    (∀ p, pathUtils.relative p p = ".") ∧
    (∀ f t, f = "" ∨ t = "" → pathUtils.relative f t = ".") ∧
    (∀ wc options, getFs.readFile wc wc.workdir options = wc.fs.readFile "." options.encoding) := by
  have hself : ∀ p, pathUtils.relative p p = "." := by
    intro p
    by_cases hp : p = ""
    · unfold pathUtils.relative
      rw [if_pos (Or.inl hp)]
    · unfold pathUtils.relative
      rw [if_neg (by simp [hp])]
      simp [commonPrefixLen_self, List.drop_length, Nat.sub_self]
  refine ⟨hself, ?_, ?_⟩
  · intro f t h
    unfold pathUtils.relative
    rw [if_pos h]
  · intro wc options
    show wc.fs.readFile (pathUtils.relative wc.workdir wc.workdir) options.encoding = _
    rw [hself]

/-- Claim C10: updateFile is a no-op when the file has no document or
the content is unchanged, and even when content changes it leaves the
unsaved and modified sets alone for files the files store does not
consider existing. -/
theorem updateFile_frame (isExistingFile : String → Bool) (st : EditorState)
    (filePath newContent : String) :
    (st.documents filePath = none → updateFile isExistingFile st filePath newContent = st) ∧
    (∀ d, st.documents filePath = some d → d.value = newContent →
      updateFile isExistingFile st filePath newContent = st) ∧
    (isExistingFile filePath = false →
      (updateFile isExistingFile st filePath newContent).unsavedFiles = st.unsavedFiles ∧
      (updateFile isExistingFile st filePath newContent).modifiedFiles = st.modifiedFiles) := by
  refine ⟨?_, ?_, ?_⟩
  · intro h
    unfold updateFile
    rw [h]
  · intro d hd hv
    unfold updateFile
    rw [hd]
    simp [hv]
  · intro hex
    unfold updateFile
    cases hd : st.documents filePath with
    | none => exact ⟨rfl, rfl⟩
    | some d =>
      by_cases hv : d.value = newContent
      · simp [hv]
      · simp [hv, hex]

/-- The spec-side reading of the guards of handleGitHubPush, taken from
the claim: all three fields filled in, a token with one of the two
accepted formats, and for a requested new branch a non-empty name with
no invalid character and no trailing dot. -/
def pushPreconditions (f : PushForm) : Prop :=
  f.githubRepoName ≠ "" ∧ f.githubUsername ≠ "" ∧ f.githubToken ≠ "" ∧
  (jsStartsWith f.githubToken "ghp_" = true ∨ jsStartsWith f.githubToken "github_pat_" = true) ∧
  (f.isNewBranch = true →
    f.newBranchName ≠ "" ∧ (∀ c ∈ f.newBranchName.data, invalidBranchChar c = false) ∧
    jsEndsWith f.newBranchName "." = false)

/-- Unfolding of the branch-name validator into its three conditions. -/
theorem isValidBranchName_iff (b : String) :
    isValidBranchName b = true
      ↔ 0 < b.data.length ∧ (∀ c ∈ b.data, invalidBranchChar c = false)
        ∧ jsEndsWith b "." = false := by
  simp [isValidBranchName, List.any_eq_true, Bool.and_eq_true, decide_eq_true_iff]
  exact and_assoc

/-- A non-empty string has a non-empty character list. -/
theorem ne_empty_data_pos (s : String) (h : s ≠ "") : 0 < s.data.length := by
  cases s with
  | mk l =>
    cases l with
    | nil => exact absurd rfl h
    | cons c cs => simp

/-- Claim C7: handleGitHubPush calls pushToGitHub, on trimmed inputs,
exactly when the preconditions hold; in every other case it reports an
error message and returns without the call. -/
theorem handleGitHubPush_guards (f : PushForm) :
    (pushPreconditions f →
      handleGitHubPush f
        = .push (jsTrim f.githubRepoName) (jsTrim f.githubUsername) (jsTrim f.githubToken)
            f.isPrivateRepo
            (if f.isNewBranch = true then some (jsTrim f.newBranchName) else none)
            f.isNewBranch) ∧
    (¬ pushPreconditions f → ∃ msg, handleGitHubPush f = .error msg) := by
  constructor
  · rintro ⟨h1, h2, h3, h4, h5⟩
    unfold handleGitHubPush
    rw [if_neg (by simp [h1, h2, h3])]
    rw [if_neg (not_not_intro h4)]
    rw [if_neg (by rintro ⟨hn, he⟩; exact (h5 hn).1 he)]
    rw [if_neg ?_]
    rintro ⟨hn, hv⟩
    obtain ⟨hne, hchars, hdot⟩ := h5 hn
    exact hv ((isValidBranchName_iff f.newBranchName).mpr
      ⟨ne_empty_data_pos _ hne, hchars, hdot⟩)
  · intro hnp
    unfold handleGitHubPush
    by_cases g1 : f.githubRepoName = "" ∨ f.githubUsername = "" ∨ f.githubToken = ""
    · exact ⟨_, if_pos g1⟩
    · rw [if_neg g1]
      by_cases g2 : ¬ (jsStartsWith f.githubToken "ghp_" = true
          ∨ jsStartsWith f.githubToken "github_pat_" = true)
      · exact ⟨_, if_pos g2⟩
      · rw [if_neg g2]
        by_cases g3 : f.isNewBranch = true ∧ f.newBranchName = ""
        · exact ⟨_, if_pos g3⟩
        · rw [if_neg g3]
          by_cases g4 : f.isNewBranch = true ∧ ¬ isValidBranchName f.newBranchName = true
          · exact ⟨_, if_pos g4⟩
          · exfalso
            apply hnp
            push_neg at g1 g2
            refine ⟨g1.1, g1.2.1, g1.2.2, g2, ?_⟩
            intro hn
            have hname : f.newBranchName ≠ "" := fun he => g3 ⟨hn, he⟩
            have hvalid : isValidBranchName f.newBranchName = true := by
              by_contra hv
              exact g4 ⟨hn, hv⟩
            obtain ⟨_, hchars, hdot⟩ := (isValidBranchName_iff f.newBranchName).mp hvalid
            exact ⟨hname, hchars, hdot⟩

/-! ## Concrete instances used by the witness theorems -/

/-- A concrete webcontainer whose filesystem answers every readFile
with fixed content and every readdir with a single file entry. -/
def wcDemo : WebContainer :=
  ⟨"/home/project",
   ⟨fun _ _ => .ok "content",
    fun _ _ => .ok [⟨"a.txt", true, false⟩]⟩⟩

/-- A fully initialized hook state over wcDemo. -/
def stDemo : HookState := ⟨true, some wcDemo, true, fun _ => none⟩

/-- A hook state whose ready flag is still unset. -/
def stDemoNotReady : HookState := ⟨false, some wcDemo, true, fun _ => none⟩

/-- A git library run that performs no write and succeeds. -/
def libDemo : GitLibBehavior := ⟨[], .ok ()⟩

/-- A git library run that writes one file and succeeds. -/
def libDemoWrites : GitLibBehavior :=
  ⟨[⟨"/home/project/a.txt", "hello", ⟨some "utf8", []⟩⟩], .ok ()⟩

/-- The value the demo clone resolves with. -/
def cloneResDemo : CloneSuccess :=
  ⟨wcDemo.workdir, applyWrites wcDemo (fun _ => none) libDemoWrites.writes⟩

/-- The stats object the demo stat call returns. -/
def statsDemo : Stats := ⟨true, false, false, 1, 438, 5, 1000, 1000⟩

/-- An auth environment in which encryption is unavailable. -/
def authEnvDemo : AuthEnv := ⟨false, none, false, none, none⟩

/-- A push form that passes every guard. -/
def pushFormDemo : PushForm := ⟨"repo", "user", "ghp_token123", false, false, ""⟩

/-- An editor state with no open document. -/
def editorStateDemo : EditorState := ⟨fun _ => none, [], [], []⟩

/-! ## Witnesses -/

/-- Witness for claim C3 at a concrete clone with one write. -/
theorem gitClone_returns_exact_file_data_witness :
    cloneResDemo.data "a.txt" = lastWriteSpec wcDemo libDemoWrites.writes "a.txt" :=
  ((gitClone_returns_exact_file_data stDemo libDemoWrites "https://github.com/u/r.git"
      wcDemo cloneResDemo rfl rfl).2.1) "a.txt"

/-- Witness for claim C4 at a hook state that is not ready. -/
theorem gitClone_requires_initialization_witness :
    gitClone stDemoNotReady libDemo "https://example.com/repo.git"
      = ⟨.notInitialized, stDemoNotReady.fileData, []⟩ :=
  gitClone_requires_initialization stDemoNotReady libDemo "https://example.com/repo.git"
    (Or.inr (Or.inr rfl))

/-- Witness for claim C5 at one ssh url and one https url. -/
theorem gitClone_ssh_and_params_witness :
    (gitClone stDemo libDemo "git@github.com:u/r.git").cloneCalls = [] ∧
    (gitClone stDemo libDemo "https://github.com/u/r.git").cloneCalls
      = [⟨wcDemo.workdir, "https://github.com/u/r.git", 1, true,
          "https://cors.isomorphic-git.org"⟩] :=
  ⟨((gitClone_ssh_and_params stDemo libDemo "git@github.com:u/r.git" wcDemo rfl rfl rfl).1
      (by decide)).2,
   (gitClone_ssh_and_params stDemo libDemo "https://github.com/u/r.git" wcDemo rfl rfl rfl).2
      (by decide)⟩

/-- Witness for claim C6 at an environment without encryption. -/
theorem onAuth_credential_order_witness :
    onAuth authEnvDemo = (.cancel, false) :=
  (onAuth_credential_order authEnvDemo).1 rfl

/-- Witness for claim C7 at a form that passes every guard. -/
theorem handleGitHubPush_guards_witness :
    handleGitHubPush pushFormDemo
      = .push (jsTrim pushFormDemo.githubRepoName) (jsTrim pushFormDemo.githubUsername)
          (jsTrim pushFormDemo.githubToken) pushFormDemo.isPrivateRepo
          (if pushFormDemo.isNewBranch = true then some (jsTrim pushFormDemo.newBranchName)
           else none)
          pushFormDemo.isNewBranch :=
  (handleGitHubPush_guards pushFormDemo).1 (by unfold pushPreconditions; decide)

/-- Witness for claim C8 at a concrete stat call that succeeds. -/
theorem stat_shape_witness :
    statsDemo.isSymbolicLink = false ∧ statsDemo.size = 1 ∧ statsDemo.mode = 0o666 :=
  (stat_shape wcDemo 5 "/home/project/a.txt").1 statsDemo rfl

/-- Witness for claim C9 at an empty first argument. -/
theorem relative_identity_and_empty_witness :
    pathUtils.relative "" "/home/project" = "." :=
  relative_identity_and_empty.2.1 "" "/home/project" (Or.inl rfl)

/-- Witness for claim C10 at a state without documents. -/
theorem updateFile_frame_witness :
    updateFile (fun _ => false) editorStateDemo "index.ts" "x" = editorStateDemo :=
  (updateFile_frame (fun _ => false) editorStateDemo "index.ts" "x").1 rfl
